import Mathlib

/-!
Verification of the technical-indicator computation engine of
`stock_dashboard.py` (a Streamlit stock dashboard).

The indicator code (lines 93-111 of the source) applies pandas primitives to
the `Close` column of a fetched OHLCV table:

  * `Series.rolling(window=k).mean()` / `.std()` (default `min_periods = k`,
    `ddof = 1`),
  * `Series.ewm(span=s, adjust=False).mean()`,
  * `Series.diff()` and `Series.where(cond, 0)` for RSI,
  * elementwise arithmetic, with NaN denoting "undefined" and propagating.

We embed the numeric pipeline over `ℚ` (exact arithmetic; NaN/undefined is
modelled by `Option`), except that a rolling standard deviation is a real
square root, so the Bollinger band columns live in `ℝ`.  The surrounding
page flow (the `data is not None and not data.empty` guard at line 66, the
`iloc[-1]` / `iloc[-2]` metric reads at lines 76-80, and the conditional
column assignments at lines 93-111) is embedded as an `Except`-valued
function on an optional list of OHLCV bars.
-/

namespace StockDashboard

/-- One OHLCV row of the fetched DataFrame: timestamp (the index entry) and
the `Open`, `High`, `Low`, `Close`, `Volume` fields.  All numeric fields are
rationals (exact model of finite floats). -/
structure Bar where
  ts : Int
  open_ : ℚ
  high : ℚ
  low : ℚ
  close : ℚ
  volume : ℚ
deriving DecidableEq

/-- `Series.rolling(window=k).mean()` with pandas defaults
(`min_periods = k`): position `i` is NaN (`none`) while fewer than `k`
observations are available, i.e. for `i + 1 < k`, and otherwise the
arithmetic mean of the trailing window `xs[i-k+1 ..= i]`. -/
def rollingMean (xs : List ℚ) (k : ℕ) : List (Option ℚ) :=
  (List.range xs.length).map (fun i =>
    if i + 1 < k then none
    else some (((xs.drop (i + 1 - k)).take k).sum / (k : ℚ)))

/-- Sample variance (`ddof = 1`) of one window, the square of what
`Series.rolling(window=k).std()` computes on that window.  A window with at
most one observation divides by zero (`0/0` in floats), producing NaN. -/
def sampleVar (w : List ℚ) : Option ℚ :=
  if w.length ≤ 1 then none
  else
    some ((w.map (fun x => (x - w.sum / (w.length : ℚ)) ^ 2)).sum /
      ((w.length : ℚ) - 1))

/-- The squared value of `Series.rolling(window=k).std()` (pandas default
`ddof = 1`): NaN during the warm-up region, sample variance of the trailing
window afterwards. -/
def rollingVar (xs : List ℚ) (k : ℕ) : List (Option ℚ) :=
  (List.range xs.length).map (fun i =>
    if i + 1 < k then none
    else sampleVar ((xs.drop (i + 1 - k)).take k))

/-- `Series.rolling(window=k).std()` itself: the (real) square root of the
rolling sample variance, NaN propagating. -/
noncomputable def rollingStd (xs : List ℚ) (k : ℕ) : List (Option ℝ) :=
  (rollingVar xs k).map (fun o => o.map (fun v => Real.sqrt (v : ℝ)))

/-- `data['Close'].ewm(span=s, adjust=False).mean()` after its first entry:
`y[j] = (1-α)·prev + α·x[j]`, threading the previous output value. -/
def ewmGo (α : ℚ) (prev : ℚ) : List ℚ → List ℚ
  | [] => []
  | x :: rest =>
    let y := (1 - α) * prev + α * x
    y :: ewmGo α y rest

/-- `Series.ewm(span=s, adjust=False).mean()`: `y[0] = x[0]` and
`y[i] = (1-α)·y[i-1] + α·x[i]` with `α = 2/(s+1)`.  Every output position is
a plain rational — the exponential recurrence has no warm-up region. -/
def ewm (xs : List ℚ) (s : ℕ) : List ℚ :=
  match xs with
  | [] => []
  | x :: rest => x :: ewmGo (2 / ((s : ℚ) + 1)) x rest

/-- `data['Close'].diff()` (line 104): NaN at position 0, otherwise
`close[i] - close[i-1]`. -/
def diff (xs : List ℚ) : List (Option ℚ) :=
  match xs with
  | [] => []
  | _ :: _ => none :: List.zipWith (fun a b => some (b - a)) xs xs.tail

/-- `delta.where(delta > 0, 0)` (line 105): keep `delta` where it is
positive, else 0.  A NaN entry fails the comparison (`NaN > 0` is false in
pandas) and is therefore replaced by 0, not kept as NaN. -/
def gainRaw (d : List (Option ℚ)) : List ℚ :=
  d.map (fun o =>
    match o with
    | some x => if 0 < x then x else 0
    | none => 0)

/-- `-delta.where(delta < 0, 0)` (line 106): keep `delta` where negative
(NaN again fails the comparison and becomes 0), then negate. -/
def lossRaw (d : List (Option ℚ)) : List ℚ :=
  d.map (fun o =>
    -(match o with
      | some x => if x < 0 then x else 0
      | none => 0))

/-- `gain = (delta.where(delta > 0, 0)).rolling(window=k).mean()`. -/
def avgGain (xs : List ℚ) (k : ℕ) : List (Option ℚ) :=
  rollingMean (gainRaw (diff xs)) k

/-- `loss = (-delta.where(delta < 0, 0)).rolling(window=k).mean()`. -/
def avgLoss (xs : List ℚ) (k : ℕ) : List (Option ℚ) :=
  rollingMean (lossRaw (diff xs)) k

/-- One position of `rs = gain/loss; RSI = 100 - 100/(1+rs)` (lines
107-108), modelling the IEEE float semantics of the source exactly on the
values the pipeline can produce (`g ≥ 0`, `l ≥ 0`):
`l > 0` gives the exact rational value; `l = 0, g ≠ 0` gives `rs = ±∞` and
`100 - 100/(1+rs) = 100`; `l = 0, g = 0` gives `rs = NaN`, hence NaN.
The remaining branch (`l ≠ 0` with `1 + g/l = 0`, float result `-∞`) is
unreachable from the pipeline, where both inputs are nonnegative; it is
mapped to `none` (non-finite). -/
def rsiPoint (g l : ℚ) : Option ℚ :=
  if l = 0 then (if g = 0 then none else some 100)
  else if 1 + g / l = 0 then none
  else some (100 - 100 / (1 + g / l))

/-- `data['RSI']` (line 108): elementwise `100 - 100/(1 + gain/loss)`, NaN
propagating from either average. -/
def rsiSeries (xs : List ℚ) (k : ℕ) : List (Option ℚ) :=
  List.zipWith (fun go lo =>
    match go, lo with
    | some g, some l => rsiPoint g l
    | _, _ => none) (avgGain xs k) (avgLoss xs k)

/-- `data['MACD_12_26']` (line 110): pointwise difference of the span-12 and
span-26 exponential moving averages of the close series. -/
def macdLine (xs : List ℚ) : List ℚ :=
  List.zipWith (fun a b => a - b) (ewm xs 12) (ewm xs 26)

/-- `data['MACD_Signal']` (line 111): span-9 exponential moving average of
the MACD line. -/
def signalLine (xs : List ℚ) : List ℚ :=
  ewm (macdLine xs) 9

/-- `data['BB_Upper'] = data['BB_Middle'] + m * rolling std` (line 101),
generalised over the window `k` and multiplier `m` the source fixes at 20
and 2.  NaN on either side propagates. -/
noncomputable def bollUpper (xs : List ℚ) (k : ℕ) (m : ℚ) : List (Option ℝ) :=
  List.zipWith (fun mo so =>
    match mo, so with
    | some mid, some sd => some ((mid : ℝ) + (m : ℝ) * sd)
    | _, _ => none) (rollingMean xs k) (rollingStd xs k)

/-- `data['BB_Lower'] = data['BB_Middle'] - m * rolling std` (line 102). -/
noncomputable def bollLower (xs : List ℚ) (k : ℕ) (m : ℚ) : List (Option ℝ) :=
  List.zipWith (fun mo so =>
    match mo, so with
    | some mid, some sd => some ((mid : ℝ) - (m : ℝ) * sd)
    | _, _ => none) (rollingMean xs k) (rollingStd xs k)

/-- The DataFrame during the dashboard run: the fetched OHLCV rows plus the
indicator columns added by lines 93-111.  Rational-valued columns (SMA, EMA,
BB middle, RSI, MACD) and real-valued ones (the Bollinger band edges, which
involve a square root) are kept in separate association lists. -/
structure DataFrame where
  bars : List Bar
  extraQ : List (String × List (Option ℚ))
  extraR : List (String × List (Option ℝ))

/-- The `Close` column. -/
def closesOf (df : DataFrame) : List ℚ :=
  df.bars.map (fun b => b.close)

/-- `data['name'] = col` for a rational-valued indicator column. -/
def addQ (df : DataFrame) (name : String) (col : List (Option ℚ)) :
    DataFrame :=
  { df with extraQ := df.extraQ ++ [(name, col)] }

/-- `data['name'] = col` for a real-valued indicator column. -/
def addR (df : DataFrame) (name : String) (col : List (Option ℝ)) :
    DataFrame :=
  { df with extraR := df.extraR ++ [(name, col)] }

/-- A fully-defined series viewed as a nullable column. -/
def asCol (xs : List ℚ) : List (Option ℚ) :=
  xs.map some

/-- Lines 93-111: for each selected indicator name, compute its column(s)
from the `Close` column and assign them into the DataFrame.  The source
fixes SMA windows 20/50, EMA span 20, Bollinger window 20 with multiplier 2,
RSI window 14 and MACD spans 12/26/9. -/
noncomputable def computeIndicators (sel : List String) (df : DataFrame) :
    DataFrame :=
  let c := closesOf df
  let df1 := if "SMA 20" ∈ sel then addQ df "SMA_20" (rollingMean c 20)
    else df
  let df2 := if "SMA 50" ∈ sel then addQ df1 "SMA_50" (rollingMean c 50)
    else df1
  let df3 := if "EMA 20" ∈ sel then addQ df2 "EMA_20" (asCol (ewm c 20))
    else df2
  let df4 := if "Bollinger Bands" ∈ sel then
      addR (addR (addQ df3 "BB_Middle" (rollingMean c 20))
        "BB_Upper" (bollUpper c 20 2)) "BB_Lower" (bollLower c 20 2)
    else df3
  let df5 := if "RSI" ∈ sel then addQ df4 "RSI" (rsiSeries c 14) else df4
  let df6 := if "MACD" ∈ sel then
      addQ (addQ df5 "MACD_12_26" (asCol (macdLine c)))
        "MACD_Signal" (asCol (signalLine c))
    else df5
  df6

/-- `series.iloc[-j]` on a pandas Series of rationals: the `j`-th value from
the end when `1 ≤ j ≤ len`, an `IndexError` otherwise. -/
def ilocNeg (xs : List ℚ) (j : ℕ) : Except String ℚ :=
  if 1 ≤ j ∧ j ≤ xs.length then
    match xs[xs.length - j]? with
    | some v => Except.ok v
    | none => Except.error "IndexError"
  else Except.error "IndexError"

/-- Whether a timestamp column is strictly increasing (hence free of
duplicates and of out-of-order entries). -/
def strictIncr : List Int → Bool
  | [] => true
  | [_] => true
  | a :: b :: rest => decide (a < b) && strictIncr (b :: rest)

/-- A malformed series in the sense of the spec's timestamp clauses: the
timestamp index has a duplicate or is out of order. -/
def malformedTs (bars : List Bar) : Bool :=
  !(strictIncr (bars.map (fun b => b.ts)))

/-- Lines 63-111 of the source: the fetched data is used only when
`data is not None and not data.empty` (line 66); the metrics row then reads
`Close.iloc[-1]`, `Close.iloc[-2]`, `Volume.iloc[-1]`, `High.iloc[-1]` and
`Low.iloc[-1]` (lines 76-86), and the indicator columns are computed and
assigned (lines 93-111).  An uncaught pandas `IndexError` aborts the run
before anything further is rendered. -/
noncomputable def dashboard (d : Option (List Bar)) (sel : List String) :
    Except String DataFrame :=
  match d with
  | none => Except.error "No data found."
  | some bars =>
    if bars.isEmpty then Except.error "No data found."
    else do
      let closes := bars.map (fun b => b.close)
      let _lastClose ← ilocNeg closes 1
      let _prevClose ← ilocNeg closes 2
      let _vol ← ilocNeg (bars.map (fun b => b.volume)) 1
      let _hi ← ilocNeg (bars.map (fun b => b.high)) 1
      let _lo ← ilocNeg (bars.map (fun b => b.low)) 1
      pure (computeIndicators sel ⟨bars, [], []⟩)

/-- A strictly increasing close series long enough for one RSI window
(window 14 needs 14 rows for the first defined output of the source). -/
def c1ex : List ℚ := [0, 1, 2, 3, 4, 5, 6, 7, 8, 9, 10, 11, 12, 13, 14]

/-- Two bars sharing the timestamp `1`: a malformed series in the sense of
the spec (duplicate, non-monotonic index), with perfectly finite values. -/
def badBars : List Bar :=
  [⟨1, 5, 5, 5, 5, 5⟩, ⟨1, 6, 6, 6, 6, 6⟩]

/-! ## Basic lemmas about the embedded primitives -/

theorem length_rollingMean (xs : List ℚ) (k : ℕ) :
    (rollingMean xs k).length = xs.length := by
  simp [rollingMean]

theorem length_rollingVar (xs : List ℚ) (k : ℕ) :
    (rollingVar xs k).length = xs.length := by
  simp [rollingVar]

theorem length_rollingStd (xs : List ℚ) (k : ℕ) :
    (rollingStd xs k).length = xs.length := by
  simp [rollingStd, length_rollingVar]

theorem rollingMean_getElem? (xs : List ℚ) (k i : ℕ) (h : i < xs.length) :
    (rollingMean xs k)[i]? =
      some (if i + 1 < k then none
        else some (((xs.drop (i + 1 - k)).take k).sum / (k : ℚ))) := by
  simp [rollingMean, List.getElem?_range h]

theorem rollingVar_getElem? (xs : List ℚ) (k i : ℕ) (h : i < xs.length) :
    (rollingVar xs k)[i]? =
      some (if i + 1 < k then none
        else sampleVar ((xs.drop (i + 1 - k)).take k)) := by
  simp [rollingVar, List.getElem?_range h]

theorem length_ewmGo (α p : ℚ) (xs : List ℚ) :
    (ewmGo α p xs).length = xs.length := by
  induction xs generalizing p with
  | nil => rfl
  | cons x rest ih => simp [ewmGo, ih]

theorem length_ewm (xs : List ℚ) (s : ℕ) : (ewm xs s).length = xs.length := by
  cases xs with
  | nil => rfl
  | cons x rest => simp [ewm, length_ewmGo]

theorem length_diff (xs : List ℚ) : (diff xs).length = xs.length := by
  cases xs with
  | nil => rfl
  | cons x rest => simp [diff]

theorem length_gainRaw (d : List (Option ℚ)) : (gainRaw d).length = d.length := by
  simp [gainRaw]

theorem length_lossRaw (d : List (Option ℚ)) : (lossRaw d).length = d.length := by
  simp [lossRaw]

theorem length_macdLine (xs : List ℚ) : (macdLine xs).length = xs.length := by
  simp [macdLine, length_ewm]

theorem ewm_getElem?_zero (ys : List ℚ) (s : ℕ) : (ewm ys s)[0]? = ys[0]? := by
  cases ys with
  | nil => rfl
  | cons x rest => simp [ewm]

theorem ewmGo_step (α p : ℚ) (ys : List ℚ) (i : ℕ) (h : i + 1 < ys.length) :
    ∃ v c, (ewmGo α p ys)[i]? = some v ∧ ys[i + 1]? = some c ∧
      (ewmGo α p ys)[i + 1]? = some ((1 - α) * v + α * c) := by
  induction ys generalizing p i with
  | nil => simp at h
  | cons y rest ih =>
    cases i with
    | zero =>
      cases rest with
      | nil => simp at h
      | cons z rest2 =>
        refine ⟨(1 - α) * p + α * y, z, ?_, ?_, ?_⟩ <;> simp [ewmGo]
    | succ j =>
      have hj : j + 1 < rest.length := by
        simp at h; omega
      obtain ⟨v, c, h1, h2, h3⟩ := ih ((1 - α) * p + α * y) j hj
      exact ⟨v, c, by simpa [ewmGo] using h1, by simpa using h2,
        by simpa [ewmGo] using h3⟩

theorem ewm_step (xs : List ℚ) (s : ℕ) (i : ℕ) (h : i + 1 < xs.length) :
    ∃ v c, (ewm xs s)[i]? = some v ∧ xs[i + 1]? = some c ∧
      (ewm xs s)[i + 1]? =
        some (2 / ((s : ℚ) + 1) * c + (1 - 2 / ((s : ℚ) + 1)) * v) := by
  set α : ℚ := 2 / ((s : ℚ) + 1) with hα
  cases xs with
  | nil => simp at h
  | cons x rest =>
    cases i with
    | zero =>
      cases rest with
      | nil => simp at h
      | cons z rest2 =>
        refine ⟨x, z, ?_, ?_, ?_⟩
        · simp [ewm]
        · simp
        · simp [ewm, ewmGo]; ring
    | succ j =>
      have hj : j + 1 < rest.length := by
        simp at h; omega
      obtain ⟨v, c, h1, h2, h3⟩ := ewmGo_step α x rest j hj
      refine ⟨v, c, ?_, ?_, ?_⟩
      · simpa [ewm] using h1
      · simpa using h2
      · rw [show ((ewm (x :: rest) s)[j + 1 + 1]? =
          (ewmGo α x rest)[j + 1]?) from by simp [ewm]]
        rw [h3]; ring_nf

theorem ilocNeg_ok (xs : List ℚ) (j : ℕ) (h1 : 1 ≤ j) (h2 : j ≤ xs.length) :
    ∃ v, ilocNeg xs j = Except.ok v := by
  have hlt : xs.length - j < xs.length := by omega
  refine ⟨xs[xs.length - j], ?_⟩
  rw [ilocNeg, if_pos ⟨h1, h2⟩, List.getElem?_eq_getElem hlt]

/-- Shared description of one defined position of the Bollinger band
columns: both bands combine the same middle value and the same standard
deviation, the square root of the `ddof = 1` sample variance of the
trailing `k`-element window. -/
theorem boll_bands (xs : List ℚ) (k : ℕ) (m : ℚ) (i : ℕ) (mid v : ℚ)
    (hm : (rollingMean xs k)[i]? = some (some mid))
    (hv : (rollingVar xs k)[i]? = some (some v)) :
    (bollUpper xs k m)[i]? =
      some (some ((mid : ℝ) + (m : ℝ) * Real.sqrt (v : ℝ))) ∧
    (bollLower xs k m)[i]? =
      some (some ((mid : ℝ) - (m : ℝ) * Real.sqrt (v : ℝ))) ∧
    2 ≤ k ∧ k ≤ i + 1 ∧ i < xs.length ∧
    ((xs.drop (i + 1 - k)).take k).length = k ∧
    v = (((xs.drop (i + 1 - k)).take k).map
      (fun x => (x - ((xs.drop (i + 1 - k)).take k).sum / (k : ℚ)) ^ 2)).sum /
      ((k : ℚ) - 1) := by
  have hi : i < xs.length := by
    have := (List.getElem?_eq_some_iff.mp hv).1
    rwa [length_rollingVar] at this
  rw [rollingVar_getElem? xs k i hi] at hv
  have hv' : (if i + 1 < k then none
      else sampleVar ((xs.drop (i + 1 - k)).take k)) = some v :=
    Option.some_injective _ hv
  by_cases hw : i + 1 < k
  · rw [if_pos hw] at hv'; exact absurd hv' (by simp)
  rw [if_neg hw] at hv'
  rw [sampleVar] at hv'
  by_cases hlen : ((xs.drop (i + 1 - k)).take k).length ≤ 1
  · rw [if_pos hlen] at hv'; exact absurd hv' (by simp)
  rw [if_neg hlen] at hv'
  have hwlen : ((xs.drop (i + 1 - k)).take k).length = k := by
    simp only [List.length_take, List.length_drop]
    omega
  have hk2 : 2 ≤ k := by omega
  have hveq : v = (((xs.drop (i + 1 - k)).take k).map
      (fun x => (x - ((xs.drop (i + 1 - k)).take k).sum / (k : ℚ)) ^ 2)).sum /
      ((k : ℚ) - 1) := by
    have := (Option.some_injective _ hv').symm
    rw [hwlen] at this
    exact this
  have hstd : (rollingStd xs k)[i]? =
      some (some (Real.sqrt (v : ℝ))) := by
    have hvv : (rollingVar xs k)[i]? = some (some v) := by
      rw [rollingVar_getElem? xs k i hi, if_neg hw, sampleVar, if_neg hlen,
        hwlen]
      rw [hveq]
    rw [rollingStd, List.getElem?_map, hvv]
    rfl
  have hmm : (rollingMean xs k)[i]? = some (some mid) := hm
  refine ⟨?_, ?_, hk2, by omega, hi, hwlen, hveq⟩
  · rw [bollUpper, List.getElem?_zipWith, hmm, hstd]
  · rw [bollLower, List.getElem?_zipWith, hmm, hstd]

/-! ## Claim theorems -/

/-- C3: for every non-empty close series and span `s`, the EMA output is as
long as the input, every position is defined (no warm-up region),
`EMA[0] = close[0]`, and each later position satisfies the recurrence
`value[i] = α·close[i] + (1-α)·value[i-1]` with `α = 2/(s+1)`. -/
theorem ema_recurrence (xs : List ℚ) (s : ℕ) (hne : xs ≠ []) :
    (ewm xs s).length = xs.length ∧
    (ewm xs s)[0]? = xs[0]? ∧
    (∀ i, i < xs.length → ((ewm xs s)[i]?).isSome = true) ∧
    (∀ i, i + 1 < xs.length → ∃ v c,
      (ewm xs s)[i]? = some v ∧ xs[i + 1]? = some c ∧
      (ewm xs s)[i + 1]? = some (2 / ((s : ℚ) + 1) * c +
        (1 - 2 / ((s : ℚ) + 1)) * v)) := by
  refine ⟨length_ewm xs s, ?_, ?_, fun i h => ewm_step xs s i h⟩
  · cases xs with
    | nil => exact absurd rfl hne
    | cons x rest => simp [ewm]
  · intro i h
    have hlt : i < (ewm xs s).length := by rw [length_ewm]; exact h
    simp [List.getElem?_eq_getElem hlt]

/-- Witness for C3 at the close series `[3, 4]` with span 20. -/
theorem ema_recurrence_witness :
    (([3, 4] : List ℚ) ≠ []) ∧
    ((ewm [3, 4] 20).length = ([3, 4] : List ℚ).length ∧
    (ewm [3, 4] 20)[0]? = ([3, 4] : List ℚ)[0]? ∧
    (∀ i, i < ([3, 4] : List ℚ).length →
      ((ewm [3, 4] 20)[i]?).isSome = true) ∧
    (∀ i, i + 1 < ([3, 4] : List ℚ).length → ∃ v c,
      (ewm [3, 4] 20)[i]? = some v ∧ ([3, 4] : List ℚ)[i + 1]? = some c ∧
      (ewm [3, 4] 20)[i + 1]? = some (2 / ((20 : ℚ) + 1) * c +
        (1 - 2 / ((20 : ℚ) + 1)) * v))) :=
  ⟨by decide, ema_recurrence [3, 4] 20 (by decide)⟩

/-- C5: for every close series and window `k > 0`, the SMA column is as long
as the input, undefined (NaN) exactly at positions `i` with `i + 1 < k`, at
every other in-range position equal to the arithmetic mean of the trailing
`k`-element window `close[i-k+1 ..= i]`, and entirely undefined when the
series is shorter than the window. -/
theorem sma_contract (xs : List ℚ) (k : ℕ) (hk : 0 < k) :
    (rollingMean xs k).length = xs.length ∧
    (∀ i, i < xs.length → i + 1 < k → (rollingMean xs k)[i]? = some none) ∧
    (∀ i, i < xs.length → k ≤ i + 1 →
      ((xs.drop (i + 1 - k)).take k).length = k ∧
      (rollingMean xs k)[i]? =
        some (some (((xs.drop (i + 1 - k)).take k).sum / (k : ℚ)))) ∧
    (xs.length < k → ∀ i, i < xs.length →
      (rollingMean xs k)[i]? = some none) := by
  refine ⟨length_rollingMean xs k, ?_, ?_, ?_⟩
  · intro i hi hw
    rw [rollingMean_getElem? xs k i hi, if_pos hw]
  · intro i hi hw
    refine ⟨?_, ?_⟩
    · simp only [List.length_take, List.length_drop]
      omega
    · rw [rollingMean_getElem? xs k i hi, if_neg (by omega)]
  · intro hlen i hi
    rw [rollingMean_getElem? xs k i hi, if_pos (by omega)]

/-- Witness for C5 at the close series `[1, 2, 3]` with window 2. -/
theorem sma_contract_witness :
    0 < 2 ∧
    ((rollingMean [1, 2, 3] 2).length = ([1, 2, 3] : List ℚ).length ∧
    (∀ i, i < ([1, 2, 3] : List ℚ).length → i + 1 < 2 →
      (rollingMean [1, 2, 3] 2)[i]? = some none) ∧
    (∀ i, i < ([1, 2, 3] : List ℚ).length → 2 ≤ i + 1 →
      ((([1, 2, 3] : List ℚ).drop (i + 1 - 2)).take 2).length = 2 ∧
      (rollingMean [1, 2, 3] 2)[i]? =
        some (some (((([1, 2, 3] : List ℚ).drop (i + 1 - 2)).take 2).sum /
          (2 : ℚ)))) ∧
    (([1, 2, 3] : List ℚ).length < 2 → ∀ i, i < ([1, 2, 3] : List ℚ).length →
      (rollingMean [1, 2, 3] 2)[i]? = some none)) :=
  ⟨by decide, sma_contract [1, 2, 3] 2 (by decide)⟩

/-- C4: for every non-empty close series, the MACD line is the pointwise
difference of the span-12 and span-26 EMAs of the close series, and the
signal line is the span-9 EMA of the MACD line — in particular its
recurrence is seeded by `macd_line[0]`, not by the raw close. -/
theorem macd_consistency (xs : List ℚ) (hne : xs ≠ []) :
    (macdLine xs).length = xs.length ∧
    (∀ i, i < xs.length → ∃ a b,
      (ewm xs 12)[i]? = some a ∧ (ewm xs 26)[i]? = some b ∧
      (macdLine xs)[i]? = some (a - b)) ∧
    signalLine xs = ewm (macdLine xs) 9 ∧
    (signalLine xs)[0]? = (macdLine xs)[0]? := by
  refine ⟨length_macdLine xs, ?_, rfl, ?_⟩
  · intro i hi
    have h12 : i < (ewm xs 12).length := by rw [length_ewm]; exact hi
    have h26 : i < (ewm xs 26).length := by rw [length_ewm]; exact hi
    refine ⟨(ewm xs 12)[i], (ewm xs 26)[i],
      List.getElem?_eq_getElem h12, List.getElem?_eq_getElem h26, ?_⟩
    simp [macdLine, List.getElem?_zipWith, List.getElem?_eq_getElem h12,
      List.getElem?_eq_getElem h26]
  · rw [signalLine, ewm_getElem?_zero]

/-- Witness for C4 at the close series `[3, 4]`. -/
theorem macd_consistency_witness :
    (([3, 4] : List ℚ) ≠ []) ∧
    ((macdLine [3, 4]).length = ([3, 4] : List ℚ).length ∧
    (∀ i, i < ([3, 4] : List ℚ).length → ∃ a b,
      (ewm [3, 4] 12)[i]? = some a ∧ (ewm [3, 4] 26)[i]? = some b ∧
      (macdLine [3, 4])[i]? = some (a - b)) ∧
    signalLine [3, 4] = ewm (macdLine [3, 4]) 9 ∧
    (signalLine [3, 4])[0]? = (macdLine [3, 4])[0]?) :=
  ⟨by decide, macd_consistency [3, 4] (by decide)⟩

/-- C2: wherever the window's average loss is 0 while the average gain is
positive, the RSI column carries the exact value 100 — the float division
`rs = gain/loss` hits `+∞` there, and `100 - 100/(1+rs)` collapses to 100,
a pinned-down value rather than an error or NaN. -/
theorem rsi_avg_loss_zero (xs : List ℚ) (k i : ℕ) (g l : ℚ)
    (hg : (avgGain xs k)[i]? = some (some g))
    (hl : (avgLoss xs k)[i]? = some (some l))
    (hl0 : l = 0) (hgpos : 0 < g) :
    (rsiSeries xs k)[i]? = some (some 100) := by
  have hgne : g ≠ 0 := ne_of_gt hgpos
  simp [rsiSeries, List.getElem?_zipWith, hg, hl, rsiPoint, hl0, hgne]

/-- Witness for C2: on the strictly increasing close series `c1ex` with
window 14, position 13 has average gain `13/14 > 0`, average loss `0`, and
RSI exactly 100. -/
theorem rsi_avg_loss_zero_witness :
    (rsiSeries c1ex 14)[13]? = some (some 100) :=
  rsi_avg_loss_zero c1ex 14 13 (13 / 14) 0
    (by norm_num [avgGain, rollingMean, gainRaw, diff, c1ex, List.range_succ])
    (by norm_num [avgLoss, rollingMean, lossRaw, diff, c1ex, List.range_succ])
    rfl (by norm_num)

/-- C1 (amended): `delta.where(delta > 0, 0)` replaces the NaN first delta
by 0, so the averages are NaN exactly for the first `window - 1` positions
(not `window` as claimed) and are defined from position `window - 1`
onward; RSI is defined only where both averages are defined. -/
theorem rsi_warmup_amended (xs : List ℚ) (k i : ℕ) (hk : 0 < k)
    (hi : i < xs.length) :
    ((avgGain xs k)[i]? = some none ↔ i + 1 < k) ∧
    ((avgLoss xs k)[i]? = some none ↔ i + 1 < k) ∧
    (∀ r, (rsiSeries xs k)[i]? = some (some r) →
      (∃ g, (avgGain xs k)[i]? = some (some g)) ∧
      (∃ l, (avgLoss xs k)[i]? = some (some l))) := by
  have hgl : i < (gainRaw (diff xs)).length := by
    rw [length_gainRaw, length_diff]; exact hi
  have hll : i < (lossRaw (diff xs)).length := by
    rw [length_lossRaw, length_diff]; exact hi
  refine ⟨?_, ?_, ?_⟩
  · rw [avgGain, rollingMean_getElem? _ k i hgl]
    by_cases hw : i + 1 < k <;> simp [hw]
  · rw [avgLoss, rollingMean_getElem? _ k i hll]
    by_cases hw : i + 1 < k <;> simp [hw]
  · intro r hr
    rw [rsiSeries, List.getElem?_zipWith] at hr
    rcases hAG : (avgGain xs k)[i]? with _ | go
    · rw [hAG] at hr; simp at hr
    rcases hAL : (avgLoss xs k)[i]? with _ | lo
    · rw [hAG, hAL] at hr; simp at hr
    rw [hAG, hAL] at hr
    rcases go with _ | g
    · simp at hr
    rcases lo with _ | l
    · simp at hr
    exact ⟨⟨g, by simp [hAG]⟩, ⟨l, by simp [hAL]⟩⟩

/-- Witness for C1's amended statement at `xs = [0, 1, 2]`, `k = 2`,
`i = 1`. -/
theorem rsi_warmup_amended_witness :
    0 < 2 ∧ 1 < ([0, 1, 2] : List ℚ).length ∧
    (((avgGain [0, 1, 2] 2)[1]? = some none ↔ 1 + 1 < 2) ∧
    ((avgLoss [0, 1, 2] 2)[1]? = some none ↔ 1 + 1 < 2) ∧
    (∀ r, (rsiSeries [0, 1, 2] 2)[1]? = some (some r) →
      (∃ g, (avgGain [0, 1, 2] 2)[1]? = some (some g)) ∧
      (∃ l, (avgLoss [0, 1, 2] 2)[1]? = some (some l)))) :=
  ⟨by decide, by decide, rsi_warmup_amended [0, 1, 2] 2 1 (by decide) (by decide)⟩

/-- C6: at every defined position, the Bollinger bands are
`middle ± m · std` where `middle` is the rolling mean, the SAME standard
deviation value feeds both bands, and that value is the square root of the
sample (`ddof = 1`) variance of the trailing `k`-element window. -/
theorem bollinger_band_structure (xs : List ℚ) (k : ℕ) (m : ℚ) (i : ℕ)
    (mid v : ℚ)
    (hm : (rollingMean xs k)[i]? = some (some mid))
    (hv : (rollingVar xs k)[i]? = some (some v)) :
    ∃ sd : ℝ, (rollingStd xs k)[i]? = some (some sd) ∧
      sd = Real.sqrt (v : ℝ) ∧
      (bollUpper xs k m)[i]? = some (some ((mid : ℝ) + (m : ℝ) * sd)) ∧
      (bollLower xs k m)[i]? = some (some ((mid : ℝ) - (m : ℝ) * sd)) ∧
      2 ≤ k ∧
      v = (((xs.drop (i + 1 - k)).take k).map
        (fun x => (x - ((xs.drop (i + 1 - k)).take k).sum / (k : ℚ)) ^ 2)).sum /
        ((k : ℚ) - 1) := by
  obtain ⟨hu, hl, hk2, hki, hi, hwlen, hveq⟩ := boll_bands xs k m i mid v hm hv
  refine ⟨Real.sqrt (v : ℝ), ?_, rfl, hu, hl, hk2, hveq⟩
  have hvv : (rollingVar xs k)[i]? = some (some v) := hv
  rw [rollingStd, List.getElem?_map, hvv]
  rfl

/-- Witness for C6 at `xs = [1, 2, 3]`, `k = 2`, `m = 2`, `i = 1` (window
`[1, 2]`, mean `3/2`, sample variance `1/2`). -/
theorem bollinger_band_structure_witness :
    (rollingMean [1, 2, 3] 2)[1]? = some (some (3 / 2)) ∧
    (rollingVar [1, 2, 3] 2)[1]? = some (some (1 / 2)) ∧
    (∃ sd : ℝ, (rollingStd [1, 2, 3] 2)[1]? = some (some sd) ∧
      sd = Real.sqrt ((1 / 2 : ℚ) : ℝ) ∧
      (bollUpper [1, 2, 3] 2 2)[1]? =
        some (some (((3 / 2 : ℚ) : ℝ) + ((2 : ℚ) : ℝ) * sd)) ∧
      (bollLower [1, 2, 3] 2 2)[1]? =
        some (some (((3 / 2 : ℚ) : ℝ) - ((2 : ℚ) : ℝ) * sd)) ∧
      2 ≤ 2 ∧
      (1 / 2 : ℚ) = (((([1, 2, 3] : List ℚ).drop (1 + 1 - 2)).take 2).map
        (fun x => (x - ((([1, 2, 3] : List ℚ).drop (1 + 1 - 2)).take 2).sum /
          (2 : ℚ)) ^ 2)).sum / ((2 : ℚ) - 1)) :=
  ⟨by norm_num [rollingMean, List.range_succ],
   by norm_num [rollingVar, sampleVar, List.range_succ],
   bollinger_band_structure [1, 2, 3] 2 2 1 (3 / 2) (1 / 2)
     (by norm_num [rollingMean, List.range_succ])
     (by norm_num [rollingVar, sampleVar, List.range_succ])⟩

/-- C7: at every position where the band columns are defined, if the
multiplier is nonnegative then `lower ≤ middle ≤ upper`. -/
theorem bollinger_band_ordering (xs : List ℚ) (k : ℕ) (m : ℚ) (i : ℕ)
    (mid v : ℚ)
    (hm : (rollingMean xs k)[i]? = some (some mid))
    (hv : (rollingVar xs k)[i]? = some (some v))
    (hm0 : 0 ≤ m) :
    ∃ u lo : ℝ, (bollUpper xs k m)[i]? = some (some u) ∧
      (bollLower xs k m)[i]? = some (some lo) ∧
      lo ≤ (mid : ℝ) ∧ (mid : ℝ) ≤ u := by
  obtain ⟨hu, hl, _, _, _, _, _⟩ := boll_bands xs k m i mid v hm hv
  refine ⟨_, _, hu, hl, ?_, ?_⟩
  · have h0 : (0 : ℝ) ≤ (m : ℝ) * Real.sqrt (v : ℝ) :=
      mul_nonneg (by exact_mod_cast hm0) (Real.sqrt_nonneg _)
    linarith
  · have h0 : (0 : ℝ) ≤ (m : ℝ) * Real.sqrt (v : ℝ) :=
      mul_nonneg (by exact_mod_cast hm0) (Real.sqrt_nonneg _)
    linarith

/-- Witness for C7 at `xs = [1, 2, 3]`, `k = 2`, `m = 2`, `i = 1`. -/
theorem bollinger_band_ordering_witness :
    (0 : ℚ) ≤ 2 ∧
    (∃ u lo : ℝ, (bollUpper [1, 2, 3] 2 2)[1]? = some (some u) ∧
      (bollLower [1, 2, 3] 2 2)[1]? = some (some lo) ∧
      lo ≤ ((3 / 2 : ℚ) : ℝ) ∧ ((3 / 2 : ℚ) : ℝ) ≤ u) :=
  ⟨by norm_num,
   bollinger_band_ordering [1, 2, 3] 2 2 1 (3 / 2) (1 / 2)
     (by norm_num [rollingMean, List.range_succ])
     (by norm_num [rollingVar, sampleVar, List.range_succ])
     (by norm_num)⟩

/-- Counterexample to C1 as stated: on the strictly increasing close series
`c1ex` with window 14, the average gain, average loss and RSI are all
already defined at position 13 < 14 (the claim asserts they are undefined
for the first 14 positions). -/
theorem rsi_warmup_counterexample :
    13 < 14 ∧
    (avgGain c1ex 14)[13]? = some (some (13 / 14)) ∧
    (avgLoss c1ex 14)[13]? = some (some 0) ∧
    (rsiSeries c1ex 14)[13]? = some (some 100) := by
  have hg : (avgGain c1ex 14)[13]? = some (some (13 / 14)) := by
    norm_num [avgGain, rollingMean, gainRaw, diff, c1ex, List.range_succ]
  have hl : (avgLoss c1ex 14)[13]? = some (some 0) := by
    norm_num [avgLoss, rollingMean, lossRaw, diff, c1ex, List.range_succ]
  refine ⟨by norm_num, hg, hl, ?_⟩
  have h100 : rsiPoint (13 / 14) 0 = some 100 := by
    norm_num [rsiPoint]
  simp [rsiSeries, List.getElem?_zipWith, hg, hl, h100]

/-- C9: computing any selection of indicators never touches the OHLCV rows:
the engine only appends indicator columns, and the open, high, low, close
and volume values of every bar are identical before and after. -/
theorem engine_preserves_bars (sel : List String) (df : DataFrame) :
    (computeIndicators sel df).bars = df.bars ∧
    (computeIndicators sel df).bars.map
        (fun b => (b.open_, b.high, b.low, b.close, b.volume)) =
      df.bars.map (fun b => (b.open_, b.high, b.low, b.close, b.volume)) := by
  have hbars : (computeIndicators sel df).bars = df.bars := by
    simp only [computeIndicators, addQ, addR]
    split_ifs <;> rfl
  exact ⟨hbars, by rw [hbars]⟩

/-- C10: a one-bar series passes the emptiness guard at line 66, but the
metrics row then dereferences `Close.iloc[-2]`, which raises an
out-of-bounds `IndexError` that aborts the page before any chart or
indicator is produced. -/
theorem single_bar_crash (bars : List Bar) (sel : List String)
    (h1 : bars.length = 1) :
    bars.isEmpty = false ∧
    dashboard (some bars) sel = Except.error "IndexError" := by
  rcases bars with _ | ⟨b, rest⟩
  · simp at h1
  · have hrest : rest = [] := by simpa using h1
    subst hrest
    refine ⟨rfl, ?_⟩
    simp [dashboard, ilocNeg, bind, Except.bind]

/-- Witness for C10: a single synthetic bar. -/
theorem single_bar_crash_witness :
    ([(⟨0, 5, 5, 5, 5, 5⟩ : Bar)].length = 1) ∧
    (([(⟨0, 5, 5, 5, 5, 5⟩ : Bar)].isEmpty = false) ∧
      dashboard (some [⟨0, 5, 5, 5, 5, 5⟩]) [] =
        Except.error "IndexError") :=
  ⟨rfl, single_bar_crash [⟨0, 5, 5, 5, 5, 5⟩] [] rfl⟩

/-- C8 (amended): the source validates nothing about the series content —
the only guard is `data is not None and not data.empty` (line 66).  Any
series with at least two bars, however malformed its timestamp index,
passes the guard and has every selected indicator computed on it. -/
theorem no_series_validation (bars : List Bar) (sel : List String)
    (h2 : 2 ≤ bars.length) (hmal : malformedTs bars = true) :
    dashboard (some bars) sel =
      Except.ok (computeIndicators sel ⟨bars, [], []⟩) := by
  have hne : bars.isEmpty = false := by
    rcases bars with _ | ⟨b, rest⟩
    · simp at h2
    · rfl
  have hc : (bars.map (fun b => b.close)).length = bars.length := by simp
  have hv : (bars.map (fun b => b.volume)).length = bars.length := by simp
  have hh : (bars.map (fun b => b.high)).length = bars.length := by simp
  have hl : (bars.map (fun b => b.low)).length = bars.length := by simp
  obtain ⟨v1, e1⟩ := ilocNeg_ok (bars.map (fun b => b.close)) 1
    (by omega) (by omega)
  obtain ⟨v2, e2⟩ := ilocNeg_ok (bars.map (fun b => b.close)) 2
    (by omega) (by omega)
  obtain ⟨v3, e3⟩ := ilocNeg_ok (bars.map (fun b => b.volume)) 1
    (by omega) (by omega)
  obtain ⟨v4, e4⟩ := ilocNeg_ok (bars.map (fun b => b.high)) 1
    (by omega) (by omega)
  obtain ⟨v5, e5⟩ := ilocNeg_ok (bars.map (fun b => b.low)) 1
    (by omega) (by omega)
  simp [dashboard, hne, e1, e2, e3, e4, e5, bind, Except.bind, pure,
    Except.pure]

/-- Witness for C8's amended statement: the duplicate-timestamp series
`badBars` is malformed, yet the dashboard happily computes indicators. -/
theorem no_series_validation_witness :
    2 ≤ badBars.length ∧ malformedTs badBars = true ∧
    dashboard (some badBars) ["EMA 20"] =
      Except.ok (computeIndicators ["EMA 20"] ⟨badBars, [], []⟩) :=
  ⟨by decide, by decide,
   no_series_validation badBars ["EMA 20"] (by decide) (by decide)⟩

/-- Counterexample to C8 as stated: `badBars` has a duplicated timestamp,
yet the computation is not rejected — the run succeeds and produces a
defined EMA indicator series (`[5, 107/21]`) for the malformed input. -/
theorem no_series_validation_counterexample :
    malformedTs badBars = true ∧
    (Except.toOption (dashboard (some badBars) ["EMA 20"])).map
        (fun df => df.extraQ) =
      some [("EMA_20", [some 5, some (107 / 21)])] := by
  constructor
  · decide
  · have hewm : ewm [5, 6] 20 = [5, 107 / 21] := by
      norm_num [ewm, ewmGo]
    simp [dashboard, badBars, ilocNeg, computeIndicators, addQ, closesOf,
      asCol, hewm, Except.toOption, bind, Except.bind, pure, Except.pure]

end StockDashboard
